import Mathlib

/-!
# Verification of the rhythm-game view/event engine

Shallow embedding, in Lean, of the core of the `danbrun/rhythm-game`
repository: the view-composition and event-dispatch engine
(`View` / `MultiView`, src/unnamed/part_001), the level collision and
scrolling logic (`LevelView`, src/unnamed/part_004; `BasicLevel`,
src/main.js), the player jump state machine (`PlayerView`, src/main.js and
src/unnamed/part_004), and the session controller (`Game`,
src/unnamed/part_005).

Conventions:
* JavaScript numbers are modelled as rationals (`ℚ`); `Math.floor` is `Int.floor`.
* `async` JavaScript methods that can throw are modelled in `Except Unit`.
* Event deliveries are modelled as traces (lists of invocation records) so
  that ordering and multiplicity of handler calls can be stated.
-/

namespace RhythmGame

/-! ## Event dispatch (`View.trigger` / `MultiView.trigger` / `MultiView.forward`)

Source: src/unnamed/part_001.

A JavaScript view object is modelled by the set of properties that the
`in` operator sees on it (own properties plus the prototype chain).  Each
property name is paired with a `Bool` that records whether the property's
value is callable (`true` = a function, i.e. a handler method; `false` = a
non-function value such as the result of a getter or a data field).
-/

/-- Property table of a view object: the names visible to the JavaScript
`in` operator, each tagged with whether the property is a function. -/
def MemberTable := List (String × Bool)

/-- `name in this` together with the callability of the found property:
`none` when the property is absent, `some b` when present (`b` = callable). -/
def memberOf (ms : MemberTable) (n : String) : Option Bool :=
  (ms.find? (fun p => p.fst == n)).map Prod.snd

/-- A view tree: `leaf` is a plain `View` (no children, `forward` is a
no-op); `comp` is a `MultiView` with its ordered child list.  `id`
identifies the node so that handler invocations can be recorded. -/
inductive VTree : Type where
  | leaf (id : Nat) (members : MemberTable)
  | comp (id : Nat) (members : MemberTable) (children : List VTree)

/-- A handler invocation record: node id, event name, and the
`(context, data)` pair the handler was called with. -/
structure Inv where
  node : Nat
  name : String
  ctx : Nat
  data : Nat
deriving DecidableEq

mutual

/-- `View.trigger` / `MultiView.trigger` (src/unnamed/part_001 lines 7-12
and 42-50).  `if (name in this)` calls `this[name](game, data)`: when the
property is a function the handler runs (recorded in the trace); when it is
not a function the call throws (`Except.error`).  A `MultiView` with no
such property forwards instead; a plain `View` does nothing (its `trigger`
has no else branch, and its `forward` is a no-op anyway). -/
def trigger : VTree → String → Nat → Nat → Except Unit (List Inv)
  | .leaf i ms, n, c, d =>
    match memberOf ms n with
    | some true => .ok [⟨i, n, c, d⟩]
    | some false => .error ()
    | none => .ok []
  | .comp i ms cs, n, c, d =>
    match memberOf ms n with
    | some true => .ok [⟨i, n, c, d⟩]
    | some false => .error ()
    | none => forwardChildren cs n c d

/-- `MultiView.forward` (src/unnamed/part_001 lines 53-58): `for (let view
of this._views) await view.trigger(name, game, data)` - each child is
triggered exactly once, in declared order, each awaited fully before the
next starts (an exception aborts the remaining children). -/
def forwardChildren : List VTree → String → Nat → Nat → Except Unit (List Inv)
  | [], _, _, _ => .ok []
  | v :: vs, n, c, d => do
    let t ← trigger v n c d
    let ts ← forwardChildren vs n c d
    pure (t ++ ts)

end

/-- `View.forward` (src/unnamed/part_001 lines 15-17): a leaf's `forward`
does nothing. -/
def leafForward (_n : String) (_c _d : Nat) : Except Unit (List Inv) := .ok []

/-- Shared helper: sequential forwarding is the monadic traversal of the
child list in declared order - each child is triggered exactly once, and
the resulting traces are concatenated in declared order. -/
theorem forwardChildren_eq_mapM (cs : List VTree) (n : String) (c d : Nat) :
    forwardChildren cs n c d =
      (List.mapM' (fun v => trigger v n c d) cs).map List.flatten := by
  induction cs with
  | nil => rfl
  | cons v vs ih =>
    simp only [forwardChildren, List.mapM'_cons, ih]
    cases h : trigger v n c d with
    | error e => simp [Except.map, Except.bind, bind]
    | ok t =>
      cases hm : List.mapM' (fun v => trigger v n c d) vs with
      | error e => simp [hm, Except.map, Except.bind, bind]
      | ok ts => simp [hm, Except.map, Except.bind, bind, pure, Except.pure]

/-! ### Concrete property tables

`multiViewMembers` lists what the JavaScript `in` operator sees on a plain
`MultiView` instance (src/unnamed/part_001 lines 21-59): the own `_views`
field, the class-declared `views` getter (returns the child array, not
callable) and methods, `View`'s inherited methods, and the
`Object.prototype` built-in function properties.  `spriteViewMembers` is
the same for a `SpriteView` instance (lines 62-143): own data fields, the
`frame`/`x`/`y`/`w`/`h` getters (return numbers, not callable), and the
`render`/`load`/`trigger`/`forward` methods. -/

/-- Properties visible on a `MultiView` instance, tagged with callability. -/
def multiViewMembers : MemberTable :=
  [("_views", false),
   ("constructor", true), ("views", false), ("load", true),
   ("trigger", true), ("forward", true),
   ("hasOwnProperty", true), ("isPrototypeOf", true),
   ("propertyIsEnumerable", true), ("toLocaleString", true),
   ("toString", true), ("valueOf", true)]

/-- Properties visible on a `SpriteView` instance, tagged with callability. -/
def spriteViewMembers : MemberTable :=
  [("_source", false), ("_image", false), ("_x", false), ("_y", false),
   ("_w", false), ("_h", false), ("_frames", false), ("_frame", false),
   ("constructor", true), ("frame", false), ("render", true),
   ("x", false), ("y", false), ("w", false), ("h", false), ("load", true),
   ("trigger", true), ("forward", true),
   ("hasOwnProperty", true), ("isPrototypeOf", true),
   ("propertyIsEnumerable", true), ("toLocaleString", true),
   ("toString", true), ("valueOf", true)]

/-! ### Asset loading (`MultiView.load`, `LevelView.load`)

`MultiView.load` (src/unnamed/part_001 lines 36-39) runs
`Promise.all(this._views.map(child => child.load()))`: the child loads are
started together and joined, so the composite load resolves exactly when
every child load resolves and rejects when any child load rejects.  The
observable join semantics is modelled by the success/failure outcome; `f`
assigns each leaf's own asset-load outcome by node id. -/

mutual

/-- Whether a node's `load` succeeds: a leaf loads its own asset, a
composite is the `Promise.all` join over its children. -/
def nodeLoad (f : Nat → Bool) : VTree → Bool
  | .leaf i _ => f i
  | .comp _ _ cs => nodeLoadAll f cs

/-- The `Promise.all` join over a child list: succeeds when every child
load succeeds. -/
def nodeLoadAll (f : Nat → Bool) : List VTree → Bool
  | [] => true
  | v :: vs => nodeLoad f v && nodeLoadAll f vs

end

/-- The join over children is the `all` of the per-child outcomes. -/
theorem nodeLoadAll_eq_all (f : Nat → Bool) (cs : List VTree) :
    nodeLoadAll f cs = cs.all (fun v => nodeLoad f v) := by
  induction cs with
  | nil => rfl
  | cons v vs ih => simp [nodeLoadAll, ih, List.all_cons]

/-- `LevelView.load` (src/unnamed/part_004 lines 977-983):
`Promise.all([loadAudio(...), super.load()])` - joins the audio load with
the `MultiView` child-load join. -/
def levelViewLoad (audioOk : Bool) (f : Nat → Bool) (cs : List VTree) : Bool :=
  audioOk && nodeLoadAll f cs

/-! ### Example trees used by witnesses -/

/-- A leaf view handling only `render` (like an `ImageView` would,
restricted to the table entries relevant to the example). -/
def exLeafA : VTree := .leaf 1 [("render", true)]

/-- A second leaf view handling only `render`. -/
def exLeafB : VTree := .leaf 2 [("render", true)]

/-! ## Claims about event dispatch -/

/-- **C1.** For every node and event name: a node that defines a
same-named handling behavior has `trigger(name, context, data)` invoke
exactly that handler with `(context, data)` and forward nothing to any
child; a Composite with no handler for the name forwards the event to
every child exactly once, in declared child order, each awaited fully
before the next (the traversal is the sequential monadic `mapM'` over the
declared child list); a leaf's `forward` does nothing. -/
theorem trigger_handler_wins_forward_in_order :
    (∀ (i : Nat) (ms : MemberTable) (n : String) (c d : Nat),
        memberOf ms n = some true →
        trigger (.leaf i ms) n c d = .ok [⟨i, n, c, d⟩]) ∧
    (∀ (i : Nat) (ms : MemberTable) (cs : List VTree) (n : String) (c d : Nat),
        memberOf ms n = some true →
        trigger (.comp i ms cs) n c d = .ok [⟨i, n, c, d⟩]) ∧
    (∀ (i : Nat) (ms : MemberTable) (cs : List VTree) (n : String) (c d : Nat),
        memberOf ms n = none →
        trigger (.comp i ms cs) n c d =
          (List.mapM' (fun v => trigger v n c d) cs).map List.flatten) ∧
    (∀ (n : String) (c d : Nat), leafForward n c d = .ok []) := by
  refine ⟨?_, ?_, ?_, ?_⟩
  · intro i ms n c d h; simp [trigger, h]
  · intro i ms cs n c d h; simp [trigger, h]
  · intro i ms cs n c d h; simp [trigger, h, forwardChildren_eq_mapM]
  · intro n c d; rfl

/-- Witness for C1: on a composite with no `render` handler, `render`
reaches both children exactly once in declared order; on a leaf with a
`render` handler, the handler is invoked with the context and data. -/
theorem trigger_handler_wins_forward_in_order_witness :
    trigger (.comp 0 multiViewMembers [exLeafA, exLeafB]) "render" 3 4 =
      (List.mapM' (fun v => trigger v "render" 3 4) [exLeafA, exLeafB]).map
        List.flatten ∧
    trigger exLeafA "render" 3 4 = .ok [⟨1, "render", 3, 4⟩] :=
  ⟨trigger_handler_wins_forward_in_order.2.2.1 0 multiViewMembers
      [exLeafA, exLeafB] "render" 3 4 (by decide),
   trigger_handler_wins_forward_in_order.1 1 [("render", true)] "render" 3 4
      (by decide)⟩

/-- **C10.** `trigger` decides "handler exists" with the JavaScript `in`
operator over the whole object, so any property on the node or its
prototype chain counts: whenever the event name collides with any member,
a Composite never forwards the event to its children (the result does not
depend on the child list), and when the member is not a function the
dispatch throws instead of forwarding.  Concretely, on a `MultiView`, the
names `load` and `forward` are swallowed by the same-named methods and
`views` (a getter returning the child array) makes dispatch throw; on a
`SpriteView`, `frame` and `x` (getters returning numbers) make dispatch
throw. -/
theorem trigger_in_operator_collision :
    (∀ (i : Nat) (ms : MemberTable) (cs : List VTree) (n : String)
        (c d : Nat) (b : Bool),
        memberOf ms n = some b →
        trigger (.comp i ms cs) n c d =
          (if b then .ok [⟨i, n, c, d⟩] else .error ())) ∧
    (∀ (i : Nat) (ms : MemberTable) (n : String) (c d : Nat) (b : Bool),
        memberOf ms n = some b →
        trigger (.leaf i ms) n c d =
          (if b then .ok [⟨i, n, c, d⟩] else .error ())) ∧
    trigger (.comp 0 multiViewMembers [exLeafA]) "views" 1 2 = .error () ∧
    trigger (.comp 0 multiViewMembers [exLeafA]) "load" 1 2 =
      .ok [⟨0, "load", 1, 2⟩] ∧
    trigger (.comp 0 multiViewMembers [exLeafA]) "forward" 1 2 =
      .ok [⟨0, "forward", 1, 2⟩] ∧
    trigger (.leaf 7 spriteViewMembers) "frame" 1 2 = .error () ∧
    trigger (.leaf 7 spriteViewMembers) "x" 1 2 = .error () := by
  refine ⟨?_, ?_, ?_, ?_, ?_, ?_, ?_⟩
  · intro i ms cs n c d b h; cases b <;> simp [trigger, h]
  · intro i ms n c d b h; cases b <;> simp [trigger, h]
  all_goals simp [trigger, memberOf, multiViewMembers, spriteViewMembers]

/-- Witness for C10: collisions with `views` (non-function) and `load`
(function) on a `MultiView` instance, via the general dispatch rule. -/
theorem trigger_in_operator_collision_witness :
    trigger (.comp 0 multiViewMembers [exLeafA]) "views" 1 2 =
      (if false then .ok [⟨0, "views", 1, 2⟩] else .error ()) ∧
    trigger (.comp 0 multiViewMembers [exLeafA]) "load" 1 2 =
      (if true then .ok [⟨0, "load", 1, 2⟩] else .error ()) :=
  ⟨trigger_in_operator_collision.1 0 multiViewMembers [exLeafA] "views" 1 2
      false (by decide),
   trigger_in_operator_collision.1 0 multiViewMembers [exLeafA] "load" 1 2
      true (by decide)⟩

/-- **C9.** A Composite's `load` joins all children's loads
(`Promise.all`): it resolves exactly when every child's load resolves, and
fails as soon as the join contains a failing child (all-or-nothing); the
same holds for `LevelView.load`, which additionally joins the audio load.
`start`, `render` and event forwarding, by contrast, are the sequential
in-order traversal of the declared child list. -/
theorem multiView_load_all_or_nothing :
    (∀ (f : Nat → Bool) (i : Nat) (ms : MemberTable) (cs : List VTree),
        nodeLoad f (.comp i ms cs) = true ↔ ∀ v ∈ cs, nodeLoad f v = true) ∧
    (∀ (f : Nat → Bool) (i : Nat) (ms : MemberTable) (cs : List VTree),
        nodeLoad f (.comp i ms cs) = false ↔ ∃ v ∈ cs, nodeLoad f v = false) ∧
    (∀ (audioOk : Bool) (f : Nat → Bool) (cs : List VTree),
        levelViewLoad audioOk f cs = true ↔
          audioOk = true ∧ ∀ v ∈ cs, nodeLoad f v = true) ∧
    (∀ (cs : List VTree) (n : String) (c d : Nat),
        forwardChildren cs n c d =
          (List.mapM' (fun v => trigger v n c d) cs).map List.flatten) := by
  refine ⟨?_, ?_, ?_, forwardChildren_eq_mapM⟩
  · intro f i ms cs; simp [nodeLoad, nodeLoadAll_eq_all]
  · intro f i ms cs; simp [nodeLoad, nodeLoadAll_eq_all]
  · intro audioOk f cs; simp [levelViewLoad, nodeLoadAll_eq_all]

/-- Witness for C9: a composite whose second child's asset fails to load
fails as a whole; with every asset fine it loads. -/
theorem multiView_load_all_or_nothing_witness :
    (nodeLoad (fun i => i ≠ 2) (.comp 0 multiViewMembers [exLeafA, exLeafB]) =
        true ↔ ∀ v ∈ [exLeafA, exLeafB], nodeLoad (fun i => i ≠ 2) v = true) ∧
    (nodeLoad (fun _ => true) (.comp 0 multiViewMembers [exLeafA, exLeafB]) =
        true ↔ ∀ v ∈ [exLeafA, exLeafB], nodeLoad (fun _ => true) v = true) :=
  ⟨multiView_load_all_or_nothing.1 (fun i => i ≠ 2) 0 multiViewMembers
      [exLeafA, exLeafB],
   multiView_load_all_or_nothing.1 (fun _ => true) 0 multiViewMembers
      [exLeafA, exLeafB]⟩

/-! ## Level collision check (`LevelView.render` / `BasicLevel.render`)

Source: src/unnamed/part_004 lines 1017-1032 and src/main.js lines
334-349.  Per frame the level recomputes `distance = data.time * speed`
and, when not mid-jump and not already lost, iterates over every spike
tile, triggering a `lose` event for each tile whose window
`[spike - tolerance, spike + tolerance]` contains the distance; the `lose`
handler (part_004 lines 1061-1064, main.js lines 372-377) latches the lost
flag and records the lose time.  The loop has no break and the guard is
evaluated once, before the loop. -/

/-- Level configuration: scroll speed (tiles per ms), collision tolerance
(tile units; `config.player.jump.tolerance`, hardcoded `0.7` in main.js),
and the spike tile list. -/
structure LevelConfig where
  speed : ℚ
  tolerance : ℚ
  spikeTiles : List ℤ

/-- Per-run level state: `_jump_time` (sentinel `-1` = not jumping),
`_lost` and `_lost_time`. -/
structure LevelState where
  jumpTime : ℚ
  lost : Bool
  lostTime : ℚ
deriving DecidableEq

/-- `LevelView.lose` / `BasicLevel.lose`: latch the lost flag and record
the lose time. -/
def levelLose (s : LevelState) (time : ℚ) : LevelState :=
  { s with lost := true, lostTime := time }

/-- The collision section of one `render` frame: the final state and the
number of `lose` events triggered during the frame.  The guard
`this._jump_time < 0 && !this._lost` is evaluated before the loop; each
matching spike triggers `lose`, whose handler updates the state. -/
def renderCollision (cfg : LevelConfig) (s : LevelState) (time : ℚ) :
    LevelState × Nat :=
  let distance := time * cfg.speed
  if s.jumpTime < 0 ∧ s.lost = false then
    cfg.spikeTiles.foldl
      (fun (acc : LevelState × Nat) (sp : ℤ) =>
        if (sp : ℚ) - cfg.tolerance ≤ distance ∧
            distance ≤ (sp : ℚ) + cfg.tolerance then
          (levelLose acc.1 time, acc.2 + 1)
        else acc)
      (s, 0)
  else (s, 0)

/-- Collision over a sequence of frames: the per-frame `lose` counts. -/
def runFrames (cfg : LevelConfig) : LevelState → List ℚ → List Nat
  | _, [] => []
  | s, t :: ts =>
    let r := renderCollision cfg s t
    r.2 :: runFrames cfg r.1 ts

/-- The collision window test for one spike tile. -/
def inWindow (cfg : LevelConfig) (distance : ℚ) (sp : ℤ) : Prop :=
  (sp : ℚ) - cfg.tolerance ≤ distance ∧ distance ≤ (sp : ℚ) + cfg.tolerance

instance (cfg : LevelConfig) (distance : ℚ) (sp : ℤ) :
    Decidable (inWindow cfg distance sp) := by
  unfold inWindow; infer_instance

/-- Helper: the collision fold counts the matching spikes and latches the
lost flag as soon as one matches (from any accumulator). -/
theorem collision_foldl (cfg : LevelConfig) (time : ℚ) (l : List ℤ)
    (s0 : LevelState) (k : Nat) :
    l.foldl
      (fun (acc : LevelState × Nat) (sp : ℤ) =>
        if (sp : ℚ) - cfg.tolerance ≤ time * cfg.speed ∧
            time * cfg.speed ≤ (sp : ℚ) + cfg.tolerance then
          (levelLose acc.1 time, acc.2 + 1)
        else acc) (s0, k) =
      (if l.countP (fun sp => decide (inWindow cfg (time * cfg.speed) sp)) = 0
        then s0 else levelLose s0 time,
       k + l.countP (fun sp => decide (inWindow cfg (time * cfg.speed) sp))) := by
  induction l generalizing s0 k with
  | nil => simp
  | cons x xs ih =>
    by_cases hx : (x : ℚ) - cfg.tolerance ≤ time * cfg.speed ∧
        time * cfg.speed ≤ (x : ℚ) + cfg.tolerance
    · have hxw : decide (inWindow cfg (time * cfg.speed) x) = true := by
        simpa [inWindow] using hx
      simp only [List.foldl_cons, hx, and_self, if_true, List.countP_cons, hxw]
      rw [ih]
      simp [levelLose, Nat.add_comm, Nat.add_assoc, Nat.add_left_comm]
    · have hxw : decide (inWindow cfg (time * cfg.speed) x) = false := by
        simpa [inWindow] using hx
      simp only [List.foldl_cons, hx, if_false, List.countP_cons, hxw]
      rw [ih]
      simp

/-- Helper: one frame of the collision check, characterised: under the
mid-jump/lost guard nothing happens; otherwise one `lose` fires per spike
whose window contains the distance, and any hit latches the lost flag. -/
theorem renderCollision_spec (cfg : LevelConfig) (s : LevelState) (time : ℚ) :
    renderCollision cfg s time =
      if s.jumpTime < 0 ∧ s.lost = false then
        (if (cfg.spikeTiles.countP
              (fun sp => decide (inWindow cfg (time * cfg.speed) sp))) = 0
          then s else levelLose s time,
         cfg.spikeTiles.countP
           (fun sp => decide (inWindow cfg (time * cfg.speed) sp)))
      else (s, 0) := by
  by_cases h : s.jumpTime < 0 ∧ s.lost = false
  · simp only [renderCollision, h, and_self, if_true]
    rw [collision_foldl]
    simp [h]
  · simp [renderCollision, h]

/-- Example level used by the collision counterexample: speed 1 tile/ms,
tolerance `0.7`, and two spike tiles one tile apart (spike windows
`[9.3, 10.7]` and `[10.3, 11.7]` overlap). -/
def cexCfg : LevelConfig := ⟨1, 7/10, [10, 11]⟩

/-- Fresh level state: not jumping (sentinel `-1`), not lost. -/
def freshLevelState : LevelState := ⟨-1, false, -1⟩

/-- **C2 (counterexample).** The collision loop has no break: at distance
`10.5`, both spike windows `[9.3, 10.7]` and `[10.3, 11.7]` contain the
distance and the frame triggers two `lose` events, not at most one. -/
theorem renderCollision_two_lose_in_one_frame :
    (renderCollision cexCfg freshLevelState (21/2)).2 = 2 ∧
    ¬ (renderCollision cexCfg freshLevelState (21/2)).2 ≤ 1 := by
  have h : (renderCollision cexCfg freshLevelState (21/2)).2 = 2 := by
    rw [renderCollision]
    norm_num [cexCfg, freshLevelState, List.foldl, levelLose]
  exact ⟨h, by omega⟩

/-- **C2 (amended).** On each rendered frame: some `lose` event fires iff
the player is not mid-jump, not already lost, and the distance
`time * speed` lies in `[spike - tolerance, spike + tolerance]` for some
spike tile; the frame emits one `lose` per matching spike (so possibly
more than one when windows overlap); a distance strictly outside every
window emits nothing; any hit latches the lost flag, and once the lost
state latches no later frame emits any `lose`. -/
theorem level_lose_emission :
    (∀ (cfg : LevelConfig) (s : LevelState) (t : ℚ),
        (renderCollision cfg s t).2 ≠ 0 ↔
          s.jumpTime < 0 ∧ s.lost = false ∧
            ∃ sp ∈ cfg.spikeTiles, inWindow cfg (t * cfg.speed) sp) ∧
    (∀ (cfg : LevelConfig) (s : LevelState) (t : ℚ),
        s.jumpTime < 0 → s.lost = false →
        (renderCollision cfg s t).2 =
          cfg.spikeTiles.countP
            (fun sp => decide (inWindow cfg (t * cfg.speed) sp))) ∧
    (∀ (cfg : LevelConfig) (s : LevelState) (t : ℚ),
        (∀ sp ∈ cfg.spikeTiles, ¬ inWindow cfg (t * cfg.speed) sp) →
        (renderCollision cfg s t).2 = 0) ∧
    (∀ (cfg : LevelConfig) (s : LevelState) (t : ℚ),
        (renderCollision cfg s t).2 ≠ 0 →
        (renderCollision cfg s t).1.lost = true) ∧
    (∀ (cfg : LevelConfig) (s : LevelState) (ts : List ℚ),
        s.lost = true → runFrames cfg s ts = ts.map (fun _ => 0)) := by
  refine ⟨?_, ?_, ?_, ?_, ?_⟩
  · intro cfg s t
    rw [renderCollision_spec]
    by_cases h : s.jumpTime < 0 ∧ s.lost = false
    · simp only [h, and_self, if_true]
      rw [Ne, List.countP_eq_zero]
      simp [h.1, h.2, inWindow]
    · simp only [h, if_false]
      constructor
      · intro hn; exact absurd rfl hn
      · intro hc; exact absurd ⟨hc.1, hc.2.1⟩ h
  · intro cfg s t h1 h2
    rw [renderCollision_spec]
    simp [h1, h2]
  · intro cfg s t h
    rw [renderCollision_spec]
    have hz : cfg.spikeTiles.countP
        (fun sp => decide (inWindow cfg (t * cfg.speed) sp)) = 0 := by
      rw [List.countP_eq_zero]
      simpa using h
    by_cases hg : s.jumpTime < 0 ∧ s.lost = false <;> simp [hg, hz]
  · intro cfg s t h
    rw [renderCollision_spec] at h ⊢
    by_cases hg : s.jumpTime < 0 ∧ s.lost = false
    · simp only [hg, and_self, if_true] at h ⊢
      by_cases hz : cfg.spikeTiles.countP
          (fun sp => decide (inWindow cfg (t * cfg.speed) sp)) = 0
      · simp [hz] at h
      · simp [hz, levelLose]
    · simp only [hg, if_false] at h
      exact absurd rfl h
  · intro cfg s ts h
    induction ts generalizing s with
    | nil => rfl
    | cons t ts ih =>
      have hs : renderCollision cfg s t = (s, 0) := by
        rw [renderCollision_spec]
        simp [h]
      simp [runFrames, hs, ih s h]

/-- Witness for C2 (amended): at distance `10.5` the fresh state is not
jumping and not lost, and the frame emits one `lose` per matching spike
(two of them). -/
theorem level_lose_emission_witness :
    (renderCollision cexCfg freshLevelState (21/2)).2 =
      cexCfg.spikeTiles.countP
        (fun sp => decide (inWindow cexCfg ((21/2) * cexCfg.speed) sp)) :=
  level_lose_emission.2.1 cexCfg freshLevelState (21/2) (by norm_num [freshLevelState]) rfl

/-! ## Scroll quantities (`LevelView.render`, `Game.render`)

Source: src/unnamed/part_004 lines 1017-1020 (`distance = data.time *
this._speed; tile = Math.floor(distance); offset = distance - tile`),
src/unnamed/part_004 line 930 (`speed = beats_per_minute / 60 / 1000`),
and src/unnamed/part_005 lines 135-159 (`data.time` is the elapsed time).
All three quantities are recomputed from the elapsed time each frame; no
field stores a running position. -/

/-- `this._speed = config.audio.beats_per_minute / 60 / 1000`. -/
def levelSpeed (bpm : ℚ) : ℚ := bpm / 60 / 1000

/-- `distance = data.time * this._speed`: a pure function of elapsed time. -/
def levelDistance (speed t : ℚ) : ℚ := t * speed

/-- `tile = Math.floor(distance)`. -/
def levelTile (speed t : ℚ) : ℤ := ⌊levelDistance speed t⌋

/-- `offset = distance - tile`. -/
def levelOffset (speed t : ℚ) : ℚ := levelDistance speed t - levelTile speed t

/-- Spike tile conversion (src/unnamed/part_004 line 933):
`Math.floor(time * 1000 * speed)` per spike time (seconds). -/
def spikeTilesOf (speed : ℚ) (times : List ℚ) : List ℤ :=
  times.map (fun time => ⌊time * 1000 * speed⌋)

/-- **C4.** The scroll quantities are pure functions of the elapsed time
alone: `distance(t) = t * speed`, `tile(t) = ⌊distance(t)⌋`, and
`offset(t) = distance(t) - tile(t) = frac(t * speed)`; and for a
nonnegative speed they are monotone nondecreasing in `t`, so no state
stored at an earlier time is needed or used. -/
theorem scroll_pure_and_monotone :
    (∀ speed t : ℚ, levelOffset speed t = Int.fract (t * speed)) ∧
    (∀ speed t : ℚ, levelDistance speed t = t * speed) ∧
    (∀ speed t : ℚ, levelTile speed t = ⌊t * speed⌋) ∧
    (∀ speed t1 t2 : ℚ, 0 ≤ speed → t1 ≤ t2 →
        levelDistance speed t1 ≤ levelDistance speed t2) ∧
    (∀ speed t1 t2 : ℚ, 0 ≤ speed → t1 ≤ t2 →
        levelTile speed t1 ≤ levelTile speed t2) := by
  refine ⟨?_, fun _ _ => rfl, fun _ _ => rfl, ?_, ?_⟩
  · intro speed t
    unfold levelOffset levelTile levelDistance Int.fract
    rfl
  · intro speed t1 t2 hs h
    exact mul_le_mul_of_nonneg_right h hs
  · intro speed t1 t2 hs h
    exact Int.floor_le_floor (mul_le_mul_of_nonneg_right h hs)

/-- Witness for C4: at the game's actual speed (128 beats per minute),
distance and tile are monotone between 1000 ms and 2500 ms. -/
theorem scroll_pure_and_monotone_witness :
    levelDistance (levelSpeed 128) 1000 ≤ levelDistance (levelSpeed 128) 2500 ∧
    levelTile (levelSpeed 128) 1000 ≤ levelTile (levelSpeed 128) 2500 :=
  ⟨scroll_pure_and_monotone.2.2.2.1 (levelSpeed 128) 1000 2500
      (by norm_num [levelSpeed]) (by norm_num),
   scroll_pure_and_monotone.2.2.2.2 (levelSpeed 128) 1000 2500
      (by norm_num [levelSpeed]) (by norm_num)⟩

/-! ## Jump arc (`PlayerView.render`)

Source: src/unnamed/part_004 line 798 / src/main.js line 224:
`jump_offset = this._jh * (1 - Math.pow(2 * jump_distance / this._jw - 1, 2))`. -/

/-- The vertical offset of the jump arc at distance `e` into a jump of
width `jw` and height `jh`. -/
def verticalOffset (jh jw e : ℚ) : ℚ := jh * (1 - (2 * e / jw - 1) ^ 2)

/-- **C5.** The jump arc is a symmetric parabola: for `e ∈ [0, jw]` (with
`jw ≠ 0`), `verticalOffset(jw - e) = verticalOffset(e)`; the offset is
zero at both endpoints and equals the full jump height at the midpoint. -/
theorem verticalOffset_symmetric (jh jw e : ℚ) (h0 : jw ≠ 0)
    (h1 : 0 ≤ e) (h2 : e ≤ jw) :
    verticalOffset jh jw (jw - e) = verticalOffset jh jw e ∧
    verticalOffset jh jw 0 = 0 ∧
    verticalOffset jh jw jw = 0 ∧
    verticalOffset jh jw (jw / 2) = jh := by
  refine ⟨?_, ?_, ?_, ?_⟩ <;> unfold verticalOffset
  · have key : 2 * (jw - e) / jw - 1 = -(2 * e / jw - 1) := by
      field_simp
      ring
    rw [key, neg_sq]
  · norm_num
  · have key : 2 * jw / jw = 2 := by field_simp
    rw [key]
    norm_num
  · have key : 2 * (jw / 2) / jw = 1 := by field_simp
    rw [key]
    norm_num

/-- Witness for C5: the game's jump (height 1, width 1.8) at `e = 0.4`. -/
theorem verticalOffset_symmetric_witness :
    verticalOffset 1 (9/5) (9/5 - 2/5) = verticalOffset 1 (9/5) (2/5) ∧
    verticalOffset 1 (9/5) 0 = 0 ∧
    verticalOffset 1 (9/5) (9/5) = 0 ∧
    verticalOffset 1 (9/5) (9/5 / 2) = 1 :=
  verticalOffset_symmetric 1 (9/5) (2/5) (by norm_num) (by norm_num) (by norm_num)

/-! ## Player jump state machine (`PlayerView`)

Source: src/main.js lines 192-258 (the self-contained variant: `press`
sets the jump start time and emits `jump`; `render` clears it and emits
`land`; `lose` latches the game-over flag) and src/unnamed/part_004 lines
814-837 (same guards; the jump/land bookkeeping runs in the `jump`/`land`
handlers).  The jump-in-progress state is the single `_jump_time` field
with sentinel `-1`. -/

/-- An event emitted by the player node. -/
inductive PlayerEvent where
  | jump (t : ℚ)
  | land (t : ℚ)
deriving DecidableEq

/-- Player node state: `_jump_time` (sentinel `-1` = grounded) and the
`_game_over` flag. -/
structure PlayerState where
  jumpTime : ℚ
  gameOver : Bool
deriving DecidableEq

/-- `PlayerView.start`: `this._jump_time = -1; this._game_over = false`. -/
def playerStart : PlayerState := ⟨-1, false⟩

/-- `PlayerView.press` (main.js lines 244-253): start a jump, emitting a
`jump` event with the press time, only when not lost and no jump is in
progress. -/
def playerPress (p : PlayerState) (t : ℚ) : PlayerState × Option PlayerEvent :=
  if p.gameOver = false ∧ p.jumpTime < 0 then
    ({ p with jumpTime := t }, some (.jump t))
  else (p, none)

/-- `PlayerView.lose` (main.js lines 255-258): `this._jump_time =
data.time; this._game_over = true` - forces the lost state from any state
and records the lose time as the final jump timestamp. -/
def playerLose (_p : PlayerState) (t : ℚ) : PlayerState := ⟨t, true⟩

/-- The jump-progress part of `PlayerView.render` (main.js lines 219-237):
while a jump is in progress and the game is not over, land (clearing the
timestamp and emitting `land`) as soon as the jump distance
`(time - jump_time) * speed` reaches the jump width. -/
def playerRender (p : PlayerState) (time speed jw : ℚ) :
    PlayerState × Option PlayerEvent :=
  if 0 ≤ p.jumpTime then
    let jumpDistance := (time - p.jumpTime) * speed
    if jw ≤ jumpDistance ∧ p.gameOver = false then
      ({ p with jumpTime := -1 }, some (.land time))
    else (p, none)
  else (p, none)

/-- **C6.** The player's jump-in-progress state is the single timestamp
`_jump_time` with sentinel `-1`: `start` resets to the sentinel; `press`
starts a jump and emits `jump(t)` exactly when not lost and no jump is in
progress (so a press mid-jump is a no-op and at most one jump is ever in
progress); `lose` forces the lost state from any state, fixing the jump
timestamp at the lose time, after which neither `press` nor `render`
changes it or emits anything; while jumping and not lost, `render` lands
(emitting `land` and restoring the sentinel) exactly on the first frame at
which the jump distance reaches the jump width. -/
theorem player_state_machine :
    playerStart = ⟨-1, false⟩ ∧
    (∀ (p : PlayerState) (t : ℚ),
        (playerPress p t).2 = some (.jump t) ↔
          p.gameOver = false ∧ p.jumpTime < 0) ∧
    (∀ (p : PlayerState) (t : ℚ), p.gameOver = false → p.jumpTime < 0 →
        playerPress p t = ({ p with jumpTime := t }, some (.jump t))) ∧
    (∀ (p : PlayerState) (t : ℚ), 0 ≤ p.jumpTime →
        playerPress p t = (p, none)) ∧
    (∀ (p : PlayerState) (t : ℚ),
        (playerLose p t).gameOver = true ∧ (playerLose p t).jumpTime = t) ∧
    (∀ (p : PlayerState) (t t2 speed jw : ℚ),
        playerPress (playerLose p t) t2 = (playerLose p t, none) ∧
        playerRender (playerLose p t) t2 speed jw = (playerLose p t, none)) ∧
    (∀ (p : PlayerState) (time speed jw : ℚ),
        0 ≤ p.jumpTime → p.gameOver = false →
        ((jw ≤ (time - p.jumpTime) * speed →
            playerRender p time speed jw =
              ({ p with jumpTime := -1 }, some (.land time))) ∧
         ((time - p.jumpTime) * speed < jw →
            playerRender p time speed jw = (p, none)))) := by
  refine ⟨rfl, ?_, ?_, ?_, ?_, ?_, ?_⟩
  · intro p t
    unfold playerPress
    by_cases h : p.gameOver = false ∧ p.jumpTime < 0 <;> simp [h]
  · intro p t h1 h2; simp [playerPress, h1, h2]
  · intro p t h; simp [playerPress, not_lt.mpr h]
  · intro p t; exact ⟨rfl, rfl⟩
  · intro p t t2 speed jw
    constructor
    · simp [playerPress, playerLose]
    · by_cases h : (0 : ℚ) ≤ t <;> simp [playerRender, playerLose, h]
  · intro p time speed jw h1 h2
    constructor
    · intro h; simp [playerRender, h1, h, h2]
    · intro h; simp [playerRender, h1, not_le.mpr h, h2]

/-- Witness for C6: from a fresh player, a press at time 3 starts a jump;
with speed 1 and jump width 1.8, the render at time 4.8 lands; a lose at
time 7 freezes the state against a later press. -/
theorem player_state_machine_witness :
    playerPress playerStart 3 = (⟨3, false⟩, some (.jump 3)) ∧
    playerRender ⟨3, false⟩ (24/5) 1 (9/5) = (⟨-1, false⟩, some (.land (24/5))) ∧
    playerPress (playerLose ⟨3, false⟩ 7) 9 = (playerLose ⟨3, false⟩ 7, none) :=
  ⟨player_state_machine.2.2.1 playerStart 3 rfl (by norm_num [playerStart]),
   (player_state_machine.2.2.2.2.2.2 ⟨3, false⟩ (24/5) 1 (9/5)
      (by norm_num) rfl).1 (by norm_num),
   (player_state_machine.2.2.2.2.2.1 ⟨3, false⟩ 7 9 1 1).1⟩

/-! ## Session controller (`Game.stop` / `Game.view`)

Source: src/unnamed/part_005 lines 108-132 (`stop`) and 182-193 (`view`).
`stop` is guarded by `if (this._view)`: without an active view it does
nothing.  With an active view it forwards a `stop` event to the view,
clears the running flag and start time, cancels a pending animation-frame
request, and drains the in-flight frame.  `view` runs
`Promise.all([this.stop(), view.load()])` and only on success installs and
starts the new view; on a load failure the `Promise.all` rejects and the
error propagates to `view`'s caller, but `stop`'s effects on the old view
have already happened. -/

/-- Controller state: the active view id (`this._view`), the running flag,
the start timestamp, a pending frame request, and an in-flight frame. -/
structure GameCtl where
  view : Option Nat
  running : Bool
  startTime : Option ℚ
  request : Bool
  frame : Bool
deriving DecidableEq

/-- `Game.forward(name, data)`: `this._view.trigger(...)` - throws when
there is no active view (null dereference), otherwise delivers the event
to the active view once.  The result is the list of view ids that received
the event. -/
def gameForward (g : GameCtl) : Except Unit (List Nat) :=
  match g.view with
  | none => .error ()
  | some v => .ok [v]

/-- The effect of `Game.stop`'s body on the controller fields: clear the
running flag and start time, cancel the pending request, drain the
in-flight frame.  The active view reference is NOT cleared. -/
def stopped (g : GameCtl) : GameCtl :=
  { g with running := false, startTime := none, request := false, frame := false }

/-- `Game.stop` (part_005 lines 108-132): guarded by `if (this._view)`;
forwards a `stop` event, clears running and start time, cancels the
pending request, drains the in-flight frame.  Returns the new state and
the views that received a `stop` event. -/
def gameStop (g : GameCtl) : Except Unit (GameCtl × List Nat) :=
  match g.view with
  | none => .ok (g, [])
  | some _ => do
    let evs ← gameForward g
    .ok (stopped g, evs)

/-- `Game.view` (part_005 lines 182-193): `Promise.all([this.stop(),
view.load()])`, then install the new view and `start` it.  `loadOk` is the
outcome of the new view's `load`; `now` the start timestamp.  The state is
returned alongside the `Except` outcome because the JavaScript `this`
retains `stop`'s mutations even when the combined promise rejects. -/
def gameView (g : GameCtl) (newView : Nat) (now : ℚ) (loadOk : Bool) :
    GameCtl × Except Unit Unit × List Nat :=
  match gameStop g with
  | .error e => (g, .error e, [])
  | .ok (g1, evs) =>
    if loadOk then
      ({ g1 with view := some newView, running := true, startTime := some now, request := true }, .ok (), evs)
    else (g1, .error (), evs)

/-- A controller with view 10 active and running, used as the concrete
state for the `stop`/`view` counterexamples. -/
def runningCtl : GameCtl :=
  { view := some 10, running := true, startTime := some 0,
    request := true, frame := false }

/-- **C7 (counterexample).** `stop` is guarded by `this._view`, which is
never cleared, so the second of two consecutive `stop` calls forwards the
`stop` event to the view again: starting from a running controller, the
first call delivers one `stop` event and the second call delivers another
(not zero), so the claim that the second call delivers no duplicate `stop`
event is false. -/
theorem gameStop_twice_duplicates :
    ((gameStop runningCtl).bind (fun r => gameStop r.1)).map (fun r => r.2) =
      .ok [10] ∧
    ¬ ((gameStop runningCtl).bind (fun r => gameStop r.1)).map (fun r => r.2) =
      .ok [] := by
  constructor
  · rfl
  · intro h
    simp [gameStop, runningCtl, gameForward, stopped, Except.bind, bind,
      Except.map] at h

/-- **C7 (amended).** `stop` never produces an error: with no active view
it is a complete no-op (state unchanged, no event delivered), and with an
active view every call - including the second of two consecutive calls -
succeeds and forwards one `stop` event to the view, so the second call
repeats the delivery rather than suppressing it. -/
theorem gameStop_no_view_noop_and_redelivers :
    (∀ g : GameCtl, g.view = none → gameStop g = .ok (g, [])) ∧
    (∀ g : GameCtl, ∀ v : Nat, g.view = some v →
        gameStop g = .ok (stopped g, [v])) ∧
    (∀ g : GameCtl, ∀ v : Nat, g.view = some v →
        (gameStop g).bind (fun r => gameStop r.1) =
          .ok (stopped g, [v])) := by
  refine ⟨?_, ?_, ?_⟩
  · intro g h; simp [gameStop, h]
  · intro g v h; simp [gameStop, gameForward, h, Except.bind, bind]
  · intro g v h; simp [gameStop, gameForward, stopped, h, Except.bind, bind]

/-- Witness for C7 (amended): concrete no-view and double-stop runs. -/
theorem gameStop_no_view_noop_and_redelivers_witness :
    gameStop { view := none, running := false, startTime := none, request := false, frame := false } =
      .ok ({ view := none, running := false, startTime := none, request := false, frame := false }, []) ∧
    (gameStop runningCtl).bind (fun r => gameStop r.1) =
      .ok (stopped runningCtl, [10]) :=
  ⟨gameStop_no_view_noop_and_redelivers.1 _ rfl,
   gameStop_no_view_noop_and_redelivers.2.2 runningCtl 10 rfl⟩

/-- **C8 (counterexample).** When the new view's `load` fails, the switch
aborts and the old view reference survives, but the old view is *not*
left running: `Promise.all` ran `stop` concurrently with the failing
`load`, so the old view already received a `stop` event and the running
flag is cleared.  Concretely, from a running controller a failed switch
leaves `view = some 10` but `running = false`, refuting "left active and
running". -/
theorem gameView_load_failure_stops_old_view :
    (gameView runningCtl 20 99 false).1.view = some 10 ∧
    (gameView runningCtl 20 99 false).2.1 = .error () ∧
    ¬ (gameView runningCtl 20 99 false).1.running = true := by
  refine ⟨rfl, rfl, ?_⟩
  intro h
  simp [gameView, gameStop, gameForward, stopped, runningCtl, Except.bind,
    bind] at h

/-- **C8 (amended).** If the new view's `load` fails during a view switch,
the pending switch aborts: the active-view reference is not replaced and
the failure surfaces to the caller of `view`; but because `stop` ran
concurrently with the load, the previously active view has already been
stopped - it received exactly one `stop` event and the controller is no
longer running (it is left active, not corrupted, but not running). -/
theorem gameView_load_failure_aborts :
    ∀ (g : GameCtl) (v newView : Nat) (now : ℚ), g.view = some v →
      gameView g newView now false = (stopped g, .error (), [v]) := by
  intro g v newView now h
  simp [gameView, gameStop, gameForward, stopped, h, Except.bind, bind]

/-- Witness for C8 (amended): the concrete failed switch from view 10. -/
theorem gameView_load_failure_aborts_witness :
    gameView runningCtl 20 99 false = (stopped runningCtl, .error (), [10]) :=
  gameView_load_failure_aborts runningCtl 10 20 99 rfl

/-! ## View-switch cancellation safety (`Game.view` / `Game.stop` / `Game.render`)

Source: src/unnamed/part_005 lines 94-159 and 182-193.  A small-step model
of the browser event loop during `view(B)` while view A is running:

* the *stop task* is `Game.stop`'s body (forward the `stop` event to A,
  clear the running flag and start time, cancel the pending
  `requestAnimationFrame` request, await the in-flight frame, resolve);
* the *frame task* is an in-flight `Game.render` (forward a `render` event
  to the *current* `this._view`, then re-request a frame iff
  `this._running` is still set);
* the *main task* is `Game.view`'s continuation after
  `Promise.all([stop, load])` (install the new view, forward `start`, set
  the running flag and request the first frame);
* `loadComplete` is the new view's asset load finishing, and
  `displayFrame` is the browser firing a requested animation-frame
  callback.  Per the HTML event loop, rendering callbacks run only when no
  promise continuation is pending (`microIdle`).

Program counters: `stopPC` 1-5 (5 = `stop` resolved), `mainPC` 1-4,
`framePC` 1-2 (meaningful while `frameActive`).  The trace records, newest
first, the observable events of the switch. -/

/-- Observable events during a view switch.  `render b` is a frame's
`render` forward, tagged with the view that received it (`false` = old
view A, `true` = new view B). -/
inductive Ev where
  | render (toB : Bool)
  | stopHandlerDone
  | stopResolved
  | startHandlerBegin
deriving DecidableEq

/-- Event-loop configuration during the switch. -/
structure LoopConfig where
  running : Bool
  request : Bool
  frameActive : Bool
  framePC : Nat
  viewB : Bool
  stopPC : Nat
  loadDone : Bool
  mainPC : Nat
  trace : List Ev
deriving DecidableEq

/-- The stop task has a pending continuation (it is blocked only while
awaiting an active in-flight frame). -/
def stopRunnable (c : LoopConfig) : Prop :=
  c.stopPC = 1 ∨ c.stopPC = 2 ∨ c.stopPC = 3 ∨
    (c.stopPC = 4 ∧ c.frameActive = false)

/-- The main task has a pending continuation (Promise.all resolved, or a
later step pending). -/
def mainRunnable (c : LoopConfig) : Prop :=
  (c.mainPC = 1 ∧ c.stopPC = 5 ∧ c.loadDone = true) ∨
    c.mainPC = 2 ∨ c.mainPC = 3

/-- No promise continuation is pending: only then may the browser run a
rendering (animation-frame) callback. -/
def microIdle (c : LoopConfig) : Prop :=
  c.frameActive = false ∧ ¬ stopRunnable c ∧ ¬ mainRunnable c

/-- One step of the event loop during `view(B)`. -/
inductive Step : LoopConfig → LoopConfig → Prop where
  | stopHandler (c : LoopConfig) (h : c.stopPC = 1) :
      Step c { c with stopPC := 2, trace := .stopHandlerDone :: c.trace }
  | stopClearRunning (c : LoopConfig) (h : c.stopPC = 2) :
      Step c { c with running := false, stopPC := 3 }
  | stopCancelRequest (c : LoopConfig) (h : c.stopPC = 3) :
      Step c { c with request := false, stopPC := 4 }
  | stopResolve (c : LoopConfig) (h : c.stopPC = 4)
      (hf : c.frameActive = false) :
      Step c { c with stopPC := 5, trace := .stopResolved :: c.trace }
  | frameRender (c : LoopConfig) (h : c.frameActive = true)
      (hp : c.framePC = 1) :
      Step c { c with framePC := 2, trace := .render c.viewB :: c.trace }
  | frameFinish (c : LoopConfig) (h : c.frameActive = true)
      (hp : c.framePC = 2) :
      Step c { c with frameActive := false, request := c.running || c.request }
  | installView (c : LoopConfig) (h : c.mainPC = 1) (hs : c.stopPC = 5)
      (hl : c.loadDone = true) :
      Step c { c with viewB := true, mainPC := 2 }
  | startHandler (c : LoopConfig) (h : c.mainPC = 2) :
      Step c { c with mainPC := 3, trace := .startHandlerBegin :: c.trace }
  | startFinish (c : LoopConfig) (h : c.mainPC = 3) :
      Step c { c with running := true, request := true, mainPC := 4 }
  | loadComplete (c : LoopConfig) (h : c.loadDone = false) :
      Step c { c with loadDone := true }
  | displayFrame (c : LoopConfig) (h : c.request = true) (hi : microIdle c) :
      Step c { c with request := false, frameActive := true, framePC := 1 }

/-- Starting configurations of the scenario: view A active, `stop` and
`load` just spawned, nothing observed yet.  The frame/request state is
arbitrary (A may be mid-frame or between frames). -/
def LoopStart (c : LoopConfig) : Prop :=
  c.viewB = false ∧ c.stopPC = 1 ∧ c.mainPC = 1 ∧ c.trace = []

/-- Reachability in the event-loop model. -/
def Reaches : LoopConfig → LoopConfig → Prop :=
  Relation.ReflTransGen Step

/-- The safety invariant of the view switch. -/
structure LoopInv (c : LoopConfig) : Prop where
  main_stop : 2 ≤ c.mainPC → c.stopPC = 5
  main_viewB : 2 ≤ c.mainPC → c.viewB = true
  stop3_running : c.stopPC = 3 → c.running = false
  stop4_state : c.stopPC = 4 → c.request = false ∧ c.running = false
  stop5_frame : c.stopPC = 5 → c.frameActive = true → c.viewB = true
  stop5_request : c.stopPC = 5 → c.request = true → c.viewB = true
  stop5_running : c.stopPC = 5 → c.running = true → c.viewB = true
  resolved_mem : c.stopPC = 5 → Ev.stopResolved ∈ c.trace
  resolved_pc : Ev.stopResolved ∈ c.trace → c.stopPC = 5
  handler_mem : 2 ≤ c.stopPC → Ev.stopHandlerDone ∈ c.trace
  after_start : ∀ l r, c.trace = l ++ Ev.startHandlerBegin :: r →
    Ev.stopHandlerDone ∈ r ∧ Ev.stopResolved ∈ r
  no_A_after_stop : ∀ l r, c.trace = l ++ Ev.stopResolved :: r →
    Ev.render false ∉ l

/-- Splitting a cons against an append-cons decomposition. -/
theorem trace_split {e x : Ev} {tr l r : List Ev}
    (h : e :: tr = l ++ x :: r) :
    (l = [] ∧ e = x ∧ r = tr) ∨ ∃ l2, l = e :: l2 ∧ tr = l2 ++ x :: r := by
  cases l with
  | nil =>
    simp only [List.nil_append, List.cons.injEq] at h
    exact .inl ⟨rfl, h.1, h.2.symm⟩
  | cons a l2 =>
    simp only [List.cons_append, List.cons.injEq] at h
    exact .inr ⟨l2, by rw [h.1], h.2⟩

/-- Prepending an event other than `startHandlerBegin` preserves the
start-ordering trace property. -/
theorem after_start_cons {tr : List Ev} {e : Ev}
    (hne : e ≠ Ev.startHandlerBegin)
    (hold : ∀ l r, tr = l ++ Ev.startHandlerBegin :: r →
      Ev.stopHandlerDone ∈ r ∧ Ev.stopResolved ∈ r) :
    ∀ l r, e :: tr = l ++ Ev.startHandlerBegin :: r →
      Ev.stopHandlerDone ∈ r ∧ Ev.stopResolved ∈ r := by
  intro l r hsplit
  rcases trace_split hsplit with ⟨_, he, _⟩ | ⟨l2, _, htr⟩
  · exact absurd he hne
  · exact hold l2 r htr

/-- Prepending an event that is neither `stopResolved` nor an old-view
render preserves the no-render-after-stop trace property. -/
theorem no_A_cons {tr : List Ev} {e : Ev} (hne : e ≠ Ev.stopResolved)
    (hnr : e ≠ Ev.render false)
    (hold : ∀ l r, tr = l ++ Ev.stopResolved :: r → Ev.render false ∉ l) :
    ∀ l r, e :: tr = l ++ Ev.stopResolved :: r → Ev.render false ∉ l := by
  intro l r hsplit
  rcases trace_split hsplit with ⟨_, he, _⟩ | ⟨l2, hl, htr⟩
  · exact absurd he hne
  · subst hl
    intro hmem
    rcases List.mem_cons.mp hmem with he2 | hm2
    · exact hnr he2.symm
    · exact hold l2 r htr hm2

/-- Prepending `stopResolved` itself also preserves the
no-render-after-stop trace property. -/
theorem no_A_cons_resolved {tr : List Ev}
    (hold : ∀ l r, tr = l ++ Ev.stopResolved :: r → Ev.render false ∉ l) :
    ∀ l r, Ev.stopResolved :: tr = l ++ Ev.stopResolved :: r →
      Ev.render false ∉ l := by
  intro l r hsplit
  rcases trace_split hsplit with ⟨hl, _, _⟩ | ⟨l2, hl, htr⟩
  · subst hl; simp
  · subst hl
    intro hmem
    rcases List.mem_cons.mp hmem with he2 | hm2
    · exact absurd he2 (by simp)
    · exact hold l2 r htr hm2

/-- Membership below a prepended event that is not `stopResolved`. -/
theorem resolved_mem_of_cons {tr : List Ev} {e : Ev}
    (hne : e ≠ Ev.stopResolved) (hmem : Ev.stopResolved ∈ e :: tr) :
    Ev.stopResolved ∈ tr := by
  rcases List.mem_cons.mp hmem with he | hm
  · exact absurd he.symm hne
  · exact hm

/-- The invariant holds in every starting configuration. -/
theorem loopInv_start (c : LoopConfig) (h : LoopStart c) : LoopInv c := by
  obtain ⟨hv, hs, hm, ht⟩ := h
  refine ⟨?_, ?_, ?_, ?_, ?_, ?_, ?_, ?_, ?_, ?_, ?_, ?_⟩
  · intro h2; rw [hm] at h2; exact absurd h2 (by omega)
  · intro h2; rw [hm] at h2; exact absurd h2 (by omega)
  · intro h3; rw [hs] at h3; exact absurd h3 (by omega)
  · intro h4; rw [hs] at h4; exact absurd h4 (by omega)
  · intro h5; rw [hs] at h5; exact absurd h5 (by omega)
  · intro h5; rw [hs] at h5; exact absurd h5 (by omega)
  · intro h5; rw [hs] at h5; exact absurd h5 (by omega)
  · intro h5; rw [hs] at h5; exact absurd h5 (by omega)
  · intro hmem; rw [ht] at hmem; exact absurd hmem (List.not_mem_nil _)
  · intro h2; rw [hs] at h2; exact absurd h2 (by omega)
  · intro l r hsplit; rw [ht] at hsplit; simp at hsplit
  · intro l r hsplit; rw [ht] at hsplit; simp at hsplit

/-- The invariant is preserved by every step. -/
theorem loopInv_step {c c2 : LoopConfig} (hInv : LoopInv c)
    (hStep : Step c c2) : LoopInv c2 := by
  obtain ⟨main_stop, main_viewB, stop3_running, stop4_state, stop5_frame,
    stop5_request, stop5_running, resolved_mem, resolved_pc, handler_mem,
    after_start, no_A_after_stop⟩ := hInv
  cases hStep with
  | stopHandler h =>
    refine ⟨?_, main_viewB, ?_, ?_, ?_, ?_, ?_, ?_, ?_, ?_, ?_, ?_⟩ <;> dsimp only
    · intro hm2; have h5 := main_stop hm2; omega
    · intro h3; exact absurd h3 (by omega)
    · intro h4; exact absurd h4 (by omega)
    · intro h5; exact absurd h5 (by omega)
    · intro h5; exact absurd h5 (by omega)
    · intro h5; exact absurd h5 (by omega)
    · intro h5; exact absurd h5 (by omega)
    · intro hmem
      have := resolved_pc (resolved_mem_of_cons (by simp) hmem)
      omega
    · intro _; exact List.mem_cons_self _ _
    · exact after_start_cons (by simp) after_start
    · exact no_A_cons (by simp) (by simp) no_A_after_stop
  | stopClearRunning h =>
    refine ⟨?_, main_viewB, ?_, ?_, ?_, ?_, ?_, ?_, ?_, ?_, after_start,
      no_A_after_stop⟩ <;> dsimp only
    · intro hm2; have h5 := main_stop hm2; omega
    · intro _; rfl
    · intro h4; exact absurd h4 (by omega)
    · intro h5; exact absurd h5 (by omega)
    · intro h5; exact absurd h5 (by omega)
    · intro h5; exact absurd h5 (by omega)
    · intro h5; exact absurd h5 (by omega)
    · intro hmem; have := resolved_pc hmem; omega
    · intro _; exact handler_mem (by omega)
  | stopCancelRequest h =>
    refine ⟨?_, main_viewB, ?_, ?_, ?_, ?_, ?_, ?_, ?_, ?_, after_start,
      no_A_after_stop⟩ <;> dsimp only
    · intro hm2; have h5 := main_stop hm2; omega
    · intro h3; exact absurd h3 (by omega)
    · intro _; exact ⟨rfl, stop3_running h⟩
    · intro h5; exact absurd h5 (by omega)
    · intro h5; exact absurd h5 (by omega)
    · intro h5; exact absurd h5 (by omega)
    · intro h5; exact absurd h5 (by omega)
    · intro hmem; have := resolved_pc hmem; omega
    · intro _; exact handler_mem (by omega)
  | stopResolve h hf =>
    refine ⟨?_, main_viewB, ?_, ?_, ?_, ?_, ?_, ?_, ?_, ?_, ?_, ?_⟩ <;> dsimp only
    · intro _; rfl
    · intro h3; exact absurd h3 (by omega)
    · intro h4; exact absurd h4 (by omega)
    · intro _ hfr; rw [hf] at hfr; exact absurd hfr (by simp)
    · intro _ hreq; rw [(stop4_state h).1] at hreq
      exact absurd hreq (by simp)
    · intro _ hrun; rw [(stop4_state h).2] at hrun
      exact absurd hrun (by simp)
    · intro _; exact List.mem_cons_self _ _
    · intro _; rfl
    · intro _; exact List.mem_cons_of_mem _ (handler_mem (by omega))
    · exact after_start_cons (by simp) after_start
    · exact no_A_cons_resolved no_A_after_stop
  | frameRender h hp =>
    refine ⟨main_stop, main_viewB, stop3_running, stop4_state, ?_, ?_, ?_,
      ?_, ?_, ?_, ?_, ?_⟩ <;> dsimp only
    · intro h5 _; exact stop5_frame h5 h
    · exact stop5_request
    · exact stop5_running
    · intro h5; exact List.mem_cons_of_mem _ (resolved_mem h5)
    · intro hmem; exact resolved_pc (resolved_mem_of_cons (by simp) hmem)
    · intro h2; exact List.mem_cons_of_mem _ (handler_mem h2)
    · exact after_start_cons (by simp) after_start
    · intro l r hsplit
      rcases trace_split hsplit with ⟨_, he, _⟩ | ⟨l2, hl, htr⟩
      · exact absurd he (by simp)
      · have hmem : Ev.stopResolved ∈ c.trace := by
          rw [htr]; exact List.mem_append_right _ (List.mem_cons_self _ _)
        have hvB : c.viewB = true := stop5_frame (resolved_pc hmem) h
        subst hl
        intro hmem2
        rcases List.mem_cons.mp hmem2 with he2 | hm2
        · rw [hvB] at he2; exact absurd he2 (by simp)
        · exact no_A_after_stop l2 r htr hm2
  | frameFinish h hp =>
    refine ⟨main_stop, main_viewB, stop3_running, ?_, ?_, ?_, stop5_running,
      resolved_mem, resolved_pc, handler_mem, after_start, no_A_after_stop⟩ <;> dsimp only
    · intro h4
      refine ⟨?_, (stop4_state h4).2⟩
      rw [(stop4_state h4).1, (stop4_state h4).2]
      rfl
    · intro _ hfr; exact absurd hfr (by simp)
    · intro h5 hor
      rcases Bool.or_eq_true_iff.mp hor with hrun | hreq
      · exact stop5_running h5 hrun
      · exact stop5_request h5 hreq
  | installView h hs hl =>
    refine ⟨?_, ?_, stop3_running, stop4_state, ?_, ?_, ?_, resolved_mem,
      resolved_pc, handler_mem, after_start, no_A_after_stop⟩ <;> dsimp only
    · intro _; exact hs
    · intro _; rfl
    · intro _ _; rfl
    · intro _ _; rfl
    · intro _ _; rfl
  | startHandler h =>
    have h5 : c.stopPC = 5 := main_stop (by omega)
    refine ⟨?_, ?_, stop3_running, stop4_state, stop5_frame, stop5_request,
      stop5_running, ?_, ?_, ?_, ?_, ?_⟩ <;> dsimp only
    · intro _; exact h5
    · intro _; exact main_viewB (by omega)
    · intro _; exact List.mem_cons_of_mem _ (resolved_mem h5)
    · intro hmem; exact resolved_pc (resolved_mem_of_cons (by simp) hmem)
    · intro h2; exact List.mem_cons_of_mem _ (handler_mem h2)
    · intro l r hsplit
      rcases trace_split hsplit with ⟨_, _, hr⟩ | ⟨l2, _, htr⟩
      · subst hr
        exact ⟨handler_mem (by omega), resolved_mem h5⟩
      · exact after_start l2 r htr
    · exact no_A_cons (by simp) (by simp) no_A_after_stop
  | startFinish h =>
    have h5 : c.stopPC = 5 := main_stop (by omega)
    have hvB : c.viewB = true := main_viewB (by omega)
    refine ⟨?_, ?_, ?_, ?_, ?_, ?_, ?_, resolved_mem, resolved_pc,
      handler_mem, after_start, no_A_after_stop⟩ <;> dsimp only
    · intro _; exact h5
    · intro _; exact hvB
    · intro h3; rw [h5] at h3; exact absurd h3 (by omega)
    · intro h4; rw [h5] at h4; exact absurd h4 (by omega)
    · intro _ _; exact hvB
    · intro _ _; exact hvB
    · intro _ _; exact hvB
  | loadComplete h =>
    exact ⟨main_stop, main_viewB, stop3_running, stop4_state, stop5_frame,
      stop5_request, stop5_running, resolved_mem, resolved_pc, handler_mem,
      after_start, no_A_after_stop⟩
  | displayFrame h hi =>
    refine ⟨main_stop, main_viewB, stop3_running, ?_, ?_, ?_, stop5_running,
      resolved_mem, resolved_pc, handler_mem, after_start, no_A_after_stop⟩ <;> dsimp only
    · intro h4; rw [(stop4_state h4).1] at h; exact absurd h (by simp)
    · intro h5 _; exact stop5_request h5 h
    · intro _ hreq; exact absurd hreq (by simp)

/-- The invariant holds in every reachable configuration. -/
theorem loopInv_reaches {c0 c : LoopConfig} (h0 : LoopStart c0)
    (h : Reaches c0 c) : LoopInv c := by
  induction h with
  | refl => exact loopInv_start c0 h0
  | tail _ hstep ih => exact loopInv_step ih hstep

/-- **C3.** During a view switch from a running view A to view B, in every
reachable configuration of the event-loop model: B's `start` handler
begins only after A's `stop` handler completed and `Game.stop` resolved;
no `render` forward reaches the old view A after `stop` resolved; and at
the instant `stop` resolves, the scheduled next frame has been cancelled
and no frame is in flight (the in-flight frame was awaited). -/
theorem view_switch_stop_before_start (c0 c : LoopConfig)
    (h0 : LoopStart c0) (h : Reaches c0 c) :
    (∀ l r, c.trace = l ++ Ev.startHandlerBegin :: r →
        Ev.stopHandlerDone ∈ r ∧ Ev.stopResolved ∈ r) ∧
    (∀ l r, c.trace = l ++ Ev.stopResolved :: r → Ev.render false ∉ l) ∧
    (∀ c2, Step c c2 → c2.trace = Ev.stopResolved :: c.trace →
        c.request = false ∧ c.frameActive = false) := by
  have hInv := loopInv_reaches h0 h
  refine ⟨hInv.after_start, hInv.no_A_after_stop, ?_⟩
  intro c2 hstep htr
  cases hstep with
  | stopHandler h1 => dsimp only at htr; simp at htr
  | stopClearRunning h1 =>
    dsimp only at htr
    have hlen := congrArg List.length htr
    simp at hlen
  | stopCancelRequest h1 =>
    dsimp only at htr
    have hlen := congrArg List.length htr
    simp at hlen
  | stopResolve h1 hf => exact ⟨(hInv.stop4_state h1).1, hf⟩
  | frameRender h1 hp => dsimp only at htr; simp at htr
  | frameFinish h1 hp =>
    dsimp only at htr
    have hlen := congrArg List.length htr
    simp at hlen
  | installView h1 hs hl =>
    dsimp only at htr
    have hlen := congrArg List.length htr
    simp at hlen
  | startHandler h1 => dsimp only at htr; simp at htr
  | startFinish h1 =>
    dsimp only at htr
    have hlen := congrArg List.length htr
    simp at hlen
  | loadComplete h1 =>
    dsimp only at htr
    have hlen := congrArg List.length htr
    simp at hlen
  | displayFrame h1 hi =>
    dsimp only at htr
    have hlen := congrArg List.length htr
    simp at hlen

/-- The scenario's starting configuration: A running with a scheduled
frame request, `stop` and `load` just spawned. -/
def switchStart : LoopConfig :=
  { running := true, request := true, frameActive := false, framePC := 1,
    viewB := false, stopPC := 1, loadDone := false, mainPC := 1, trace := [] }

/-- The configuration after a full successful switch: stop drained, load
done, B installed and started. -/
def switchEnd : LoopConfig :=
  { running := true, request := true, frameActive := false, framePC := 1,
    viewB := true, stopPC := 5, loadDone := true, mainPC := 4,
    trace := [.startHandlerBegin, .stopResolved, .stopHandlerDone] }

/-- A concrete complete run of the switch from `switchStart` to
`switchEnd`. -/
theorem switch_run : Reaches switchStart switchEnd :=
  Relation.ReflTransGen.head (Step.stopHandler _ rfl)
    (Relation.ReflTransGen.head (Step.stopClearRunning _ rfl)
      (Relation.ReflTransGen.head (Step.stopCancelRequest _ rfl)
        (Relation.ReflTransGen.head (Step.stopResolve _ rfl rfl)
          (Relation.ReflTransGen.head (Step.loadComplete _ rfl)
            (Relation.ReflTransGen.head (Step.installView _ rfl rfl rfl)
              (Relation.ReflTransGen.head (Step.startHandler _ rfl)
                (Relation.ReflTransGen.head (Step.startFinish _ rfl)
                  Relation.ReflTransGen.refl)))))))

/-- Witness for C3: the safety properties at the end of the concrete run
`switchStart` to `switchEnd`. -/
theorem view_switch_stop_before_start_witness :
    (∀ l r, switchEnd.trace = l ++ Ev.startHandlerBegin :: r →
        Ev.stopHandlerDone ∈ r ∧ Ev.stopResolved ∈ r) ∧
    (∀ l r, switchEnd.trace = l ++ Ev.stopResolved :: r →
        Ev.render false ∉ l) ∧
    (∀ c2, Step switchEnd c2 →
        c2.trace = Ev.stopResolved :: switchEnd.trace →
        switchEnd.request = false ∧ switchEnd.frameActive = false) :=
  view_switch_stop_before_start switchStart switchEnd
    ⟨rfl, rfl, rfl, rfl⟩ switch_run

end RhythmGame
